import Mathlib

/-!
Verification development for the implicit-tokens aligner pipeline
(`src/implicit_tokens/aligner.py`) and the dataset merge tool
(`tools/dataset_merge.py`).

Embeddings are modelled as lists of real-valued vectors (`List ℝ`), token
sequences as `List Nat`, and attention masks as `List Nat` (values 0/1).
The per-example body of `ImplicitTokensAligner.forward` is split into the
span-location step (`locateSpan`), the cross-attention aggregation
(`mhaForward`, a model of `torch.nn.MultiheadAttention` with batch size 1),
the splice (`processExample`), and the batch padding step (`padBatch`).
Python slice `xs[a:b]` is rendered as `(xs.drop a).take (b - a)`, and the
`IndexError` raised by `think_positions[2]` when fewer than three open tags
exist is rendered as the `SpanResult.indexFault` outcome.
-/

namespace ImplicitTokens

/-- A token embedding vector (one row of the embedding matrix). -/
abbrev Vec := List ℝ

/-- An embedding sequence: one vector per token position. -/
abbrev Emb := List Vec

/-- Outcome of the span-location step (lines 44-62 of `aligner.py`):
either a located `(start, end)` pair, the pass-through "no region" case,
or the unchecked `IndexError` raised by `think_positions[2]` when fewer
than three open-tag occurrences exist. -/
inductive SpanResult where
  | found : Nat → Nat → SpanResult
  | noRegion : SpanResult
  | indexFault : SpanResult
deriving DecidableEq, Repr

/-- Positions (in increasing order) at which token `t` occurs in `ids`;
models `(ids == t).nonzero(as_tuple=True)[0]`. -/
def positionsOf (ids : List Nat) (t : Nat) : List Nat :=
  (List.range ids.length).filter (fun i => ids.getD i 0 == t)

/-- The span locator of `ImplicitTokensAligner.forward`:
collect open (`<think>`) and close (`</think>`) positions; if either set is
empty, no region (pass-through).  Otherwise the code indexes
`think_positions[2]` (the third occurrence) without a bounds check: when
fewer than three open tags exist this raises `IndexError`, modelled as
`indexFault`.  Among close positions strictly after the chosen start the
last one is taken; if none exists, no region. -/
def locateSpan (thinkId endThinkId : Nat) (ids : List Nat) : SpanResult :=
  let tp := positionsOf ids thinkId
  let ep := positionsOf ids endThinkId
  if tp.length = 0 ∨ ep.length = 0 then
    .noRegion
  else
    match tp[2]? with
    | none => .indexFault
    | some s =>
      match (ep.filter (fun j => decide (s < j))).getLast? with
      | none => .noRegion
      | some e => .found s e

/-- Parameters of `torch.nn.MultiheadAttention(embed_dim, num_heads)` as used
by the aligner: separate query/key/value input projections (equivalent to
the packed torch `in_proj`) and the output projection, each an
`embed_dim × embed_dim` matrix (list of rows) with a bias vector. -/
structure MHAParams where
  embedDim : Nat
  numHeads : Nat
  wq : List Vec
  wk : List Vec
  wv : List Vec
  wo : List Vec
  bq : Vec
  bk : Vec
  bv : Vec
  bo : Vec

/-- Dot product of two vectors. -/
noncomputable def dot (a b : Vec) : ℝ :=
  (List.zipWith (fun x y => x * y) a b).sum

/-- Affine projection `m · v + b` (one output coordinate per matrix row). -/
noncomputable def matVecB (m : List Vec) (b : Vec) (v : Vec) : Vec :=
  List.zipWith (fun row bi => dot row v + bi) m b

/-- Coordinates `[h*d, (h+1)*d)` of a vector: the slice owned by head `h`. -/
def headSlice (d h : Nat) (v : Vec) : Vec :=
  (v.drop (h * d)).take d

/-- Softmax of a list of scores. -/
noncomputable def softmax (xs : List ℝ) : List ℝ :=
  let es := xs.map Real.exp
  es.map (fun x => x / es.sum)

/-- Weighted sum `Σ_i w_i · vs_i` of `d`-dimensional vectors, written
coordinate-wise. -/
noncomputable def weightedSum (w : List ℝ) (vs : List Vec) (d : Nat) : Vec :=
  (List.range d).map (fun j => (List.zipWith (fun wi v => wi * v.getD j 0) w vs).sum)

/-- Scaled dot-product attention for one head: for each (projected) query,
softmax the scaled scores against the keys and take the weighted sum of the
values, all restricted to the slice of width `d` owned by head `h`. -/
noncomputable def attendHead (d h : Nat) (qs ks vs : List Vec) : List Vec :=
  let kh := ks.map (headSlice d h)
  let vh := vs.map (headSlice d h)
  (qs.map (headSlice d h)).map (fun q =>
    weightedSum (softmax (kh.map (fun kk => dot q kk / Real.sqrt (d : ℝ)))) vh d)

/-- Model of `torch.nn.MultiheadAttention.forward` at batch size 1 (the
aligner calls it with query `(k, 1, H)` and key = value `(L, 1, H)`, then
squeezes the batch dimension): project queries/keys/values, run scaled
dot-product attention per head, concatenate the heads per query, and apply
the output projection. -/
noncomputable def mhaForward (p : MHAParams) (queries kvs : List Vec) : List Vec :=
  let d := p.embedDim / p.numHeads
  let qs := queries.map (matVecB p.wq p.bq)
  let ks := kvs.map (matVecB p.wk p.bk)
  let vs := kvs.map (matVecB p.wv p.bv)
  let heads := (List.range p.numHeads).map (fun h => attendHead d h qs ks vs)
  let catRows := (List.range queries.length).map
    (fun i => (heads.map (fun hd => hd.getD i [])).flatten)
  catRows.map (matVecB p.wo p.bo)

/-- The per-example body of `ImplicitTokensAligner.forward` (lines 44-90):
span location, then the splice.  `implicitTokens` models
`self.implicit_tokens` (the `k` learned query vectors) and `k` models
`self.k`; `none` models the propagated `IndexError` of the locator. -/
noncomputable def processExample (p : MHAParams) (implicitTokens : Emb) (k : Nat)
    (thinkId endThinkId : Nat) (ids : List Nat) (emb : Emb) (mask : List Nat) :
    Option (Emb × List Nat) :=
  match locateSpan thinkId endThinkId ids with
  | .indexFault => none
  | .noRegion => some (emb, mask)
  | .found startIdx endIdx =>
    let regionEmb := (emb.drop (startIdx + 1)).take (endIdx - (startIdx + 1))
    if regionEmb.length = 0 then
      some (emb.take startIdx ++ emb.drop (endIdx + 1),
            mask.take startIdx ++ mask.drop (endIdx + 1))
    else
      let alignedRegion := mhaForward p implicitTokens regionEmb
      some (emb.take startIdx ++ alignedRegion ++ emb.drop (endIdx + 1),
            mask.take startIdx ++ List.replicate k 1 ++ mask.drop (endIdx + 1))

/-- Maximum reassembled length in a batch, `max(new_seq_lengths)`
(the Python `max` presupposes a non-empty batch). -/
def batchMaxLen (pairs : List (Emb × List Nat)) : Nat :=
  (pairs.map (fun pr => pr.1.length)).foldr max 0

/-- The batch-padding step of `ImplicitTokensAligner.forward` (lines
92-109): right-pad every reassembled sequence to the batch maximum with
copies of the pad-token embedding, and its mask with zeros. -/
def padBatch (padTokenEmb : Vec) (pairs : List (Emb × List Nat)) :
    List (Emb × List Nat) :=
  let maxLen := batchMaxLen pairs
  pairs.map (fun pr =>
    let padLen := maxLen - pr.1.length
    if 0 < padLen then
      (pr.1 ++ List.replicate padLen padTokenEmb,
       pr.2 ++ List.replicate padLen 0)
    else pr)

/-- Label construction in `data_collator` (line 249):
`[-100] * p_len + ids[p_len:]`. -/
def makeLabels (ids : List Int) (pLen : Nat) : List Int :=
  List.replicate pLen (-100) ++ ids.drop pLen

/-- Maximum row length, the padding target of `tokenizer.pad`. -/
def rowMax (rows : List (List Int)) : Nat :=
  (rows.map List.length).foldr max 0

/-- Model of the `tokenizer.pad` call on a list of rows: right-pad every row to
the length of the longest row with the pad token id. -/
def padRows (padId : Int) (rows : List (List Int)) : List (List Int) :=
  let m := rowMax rows
  rows.map (fun r => r ++ List.replicate (m - r.length) padId)

/-- The `data_collator` function (lines 237-256) on a batch of examples,
each given as its tokenized full text together with its recorded prompt
length: build labels with the `-100` prompt mask, pad inputs and labels
with the pad token id, and set the attention mask to 1 exactly where the
padded input differs from the pad token id. -/
def dataCollator (padId : Int) (batch : List (List Int × Nat)) :
    List (List Int) × List (List Int) × List (List Int) :=
  let inputIds := batch.map (fun b => b.1)
  let labels := batch.map (fun b => makeLabels b.1 b.2)
  let batchInputs := padRows padId inputIds
  let batchLabels := padRows padId labels
  let attentionMask := batchInputs.map
    (fun r => r.map (fun t => if t ≠ padId then (1 : Int) else 0))
  (batchInputs, attentionMask, batchLabels)

/-- A loaded dataset as `tools/dataset_merge.py` sees it: its schema
(`dataset.features`, the field-name/type structure, abstracted to the list
of field names) and its rows. -/
structure HFDataset where
  features : List String
  rows : List (List String)

/-- The merge logic of `tools/dataset_merge.py` (lines 16-20): compare
`dataset1.features != dataset2.features`; raise `ValueError` on mismatch
(modelled as `Except.error` carrying the message), otherwise concatenate. -/
def mergeDatasets (d1 d2 : HFDataset) : Except String HFDataset :=
  if d1.features = d2.features then
    .ok ⟨d1.features, d1.rows ++ d2.rows⟩
  else
    .error "The two datasets do not have the same structure!"

/-- A demonstration parameter set with `embed_dim = 1` and one head, used
only to instantiate theorems at concrete inputs. -/
noncomputable def mhaDemo : MHAParams :=
  ⟨1, 1, [[1]], [[1]], [[1]], [[1]], [0], [0], [0], [0]⟩

/-! ### Helper lemmas -/

lemma positionsOf_eq_nil {ids : List Nat} {t : Nat} (h : t ∉ ids) :
    positionsOf ids t = [] := by
  refine List.filter_eq_nil_iff.mpr ?_
  intro i hi
  simp only [List.mem_range] at hi
  simp only [beq_iff_eq]
  intro hEq
  exact h (hEq ▸ (List.getD_eq_getElem ids 0 hi ▸ ids.getElem_mem hi))

lemma mem_positionsOf_lt {ids : List Nat} {t e : Nat}
    (h : e ∈ positionsOf ids t) : e < ids.length := by
  have := List.mem_filter.mp h
  exact List.mem_range.mp this.1

lemma foldr_max_le {l : List Nat} {x : Nat} (h : x ∈ l) :
    x ≤ l.foldr max 0 := by
  induction l with
  | nil => cases h
  | cons a tl ih =>
    rcases List.mem_cons.mp h with h | h
    · exact h ▸ le_max_left _ _
    · exact le_trans (ih h) (le_max_right _ _)

lemma getD_replicate {α : Type} {n j : Nat} {a d : α} (h : j < n) :
    (List.replicate n a).getD j d = a := by
  rw [List.getD_eq_getElem _ _ (by simpa using h)]
  simp

lemma mem_of_getLast?_eq_some {α : Type} {l : List α} {a : α}
    (h : l.getLast? = some a) : a ∈ l := by
  obtain ⟨hne, hEq⟩ := List.mem_getLast?_eq_getLast (Option.mem_def.mpr h)
  exact hEq ▸ List.getLast_mem hne

/-- When the locator reports `found s e`, the start precedes the end and the
end is a genuine position of the token sequence. -/
lemma locateSpan_found_bounds {thinkId endThinkId : Nat} {ids : List Nat}
    {s e : Nat} (h : locateSpan thinkId endThinkId ids = .found s e) :
    s < e ∧ e < ids.length := by
  unfold locateSpan at h
  simp only at h
  split at h
  · exact absurd h (by simp)
  · split at h
    · exact absurd h (by simp)
    · rename_i sVal hsVal
      split at h
      · exact absurd h (by simp)
      · rename_i eVal heVal
        obtain ⟨hs, he⟩ : sVal = s ∧ eVal = e := by
          cases h; exact ⟨rfl, rfl⟩
        subst hs; subst he
        have hmem := mem_of_getLast?_eq_some heVal
        have := List.mem_filter.mp hmem
        exact ⟨of_decide_eq_true this.2, mem_positionsOf_lt this.1⟩

lemma positionsOf_ne_nil {ids : List Nat} {t : Nat} (h : t ∈ ids) :
    positionsOf ids t ≠ [] := by
  obtain ⟨i, hi, hEq⟩ := List.getElem_of_mem h
  intro hnil
  have hmem : i ∈ positionsOf ids t := by
    simp only [positionsOf, List.mem_filter, List.mem_range, beq_iff_eq]
    exact ⟨hi, by rw [List.getD_eq_getElem ids 0 hi, hEq]⟩
  simp [hnil] at hmem

/-- The cross-attention output has one row per query vector. -/
lemma mhaForward_length (p : MHAParams) (queries kvs : List Vec) :
    (mhaForward p queries kvs).length = queries.length := by
  simp [mhaForward]

/-! ### Claim theorems -/

/-- C1: the spec demands that, on a sequence with open and close tags
present but fewer open-tag occurrences than the hard-coded third-occurrence
ordinal expects, the span locator fail with a descriptive error.  The code
instead hits the unchecked index fault of `think_positions[2]`
(a raw `IndexError`), exhibited here on the sequence `[3, 9]` with open id
3 and close id 9 (one occurrence of each). -/
theorem c1_locator_unchecked_index_fault :
    locateSpan 3 9 [3, 9] = .indexFault := by decide

/-- C3: for a token sequence with at least one open-tag occurrence but no
close-tag occurrence strictly after the chosen open position (either
because no close tag occurs at all, or because the chosen third-occurrence
start has no close position after it), the span locator returns no region
and the embeddings and mask of the example pass through unchanged. -/
theorem c3_locator_none_without_close_after (p : MHAParams) (impl : Emb)
    (k thinkId endThinkId : Nat) (ids : List Nat) (emb : Emb) (mask : List Nat)
    (hOpen : thinkId ∈ ids)
    (hNoCloseAfter : positionsOf ids endThinkId = [] ∨
      ∃ s, (positionsOf ids thinkId)[2]? = some s ∧
        (positionsOf ids endThinkId).filter (fun j => decide (s < j)) = []) :
    locateSpan thinkId endThinkId ids = .noRegion ∧
    processExample p impl k thinkId endThinkId ids emb mask = some (emb, mask) := by
  have hloc : locateSpan thinkId endThinkId ids = .noRegion := by
    unfold locateSpan
    simp only
    by_cases hc : (positionsOf ids thinkId).length = 0 ∨
        (positionsOf ids endThinkId).length = 0
    · rw [if_pos hc]
    · rw [if_neg hc]
      rcases hNoCloseAfter with hep | ⟨s, hs, hfilter⟩
      · exact absurd (Or.inr (by simp [hep])) hc
      · rw [hs]
        simp [hfilter]
  exact ⟨hloc, by simp [processExample, hloc]⟩

/-- C3 witness: the sequence `[9, 3, 3, 3]` has three open tags (chosen
start at index 3) and a close tag only before it, so the locator returns
no region and the example is unchanged. -/
theorem c3_witness :
    locateSpan 3 9 [9, 3, 3, 3] = .noRegion ∧
    processExample mhaDemo [[0]] 1 3 9 [9, 3, 3, 3]
      (List.replicate 4 [0]) (List.replicate 4 1) =
      some (List.replicate 4 [0], List.replicate 4 1) :=
  c3_locator_none_without_close_after mhaDemo [[0]] 1 3 9 [9, 3, 3, 3]
    (List.replicate 4 [0]) (List.replicate 4 1) (by decide)
    (Or.inr ⟨3, by decide, by decide⟩)

/-- C4: for a token sequence with no occurrence of the open tag id, the
span locator returns no region and the reassembler passes the embedding
sequence and attention mask of the example through unchanged. -/
theorem c4_no_open_tag_identity (p : MHAParams) (impl : Emb)
    (k thinkId endThinkId : Nat) (ids : List Nat) (emb : Emb) (mask : List Nat)
    (h : thinkId ∉ ids) :
    locateSpan thinkId endThinkId ids = .noRegion ∧
    processExample p impl k thinkId endThinkId ids emb mask = some (emb, mask) := by
  have hloc : locateSpan thinkId endThinkId ids = .noRegion := by
    unfold locateSpan
    simp [positionsOf_eq_nil h]
  exact ⟨hloc, by simp [processExample, hloc]⟩

/-- C4 witness: the open id 3 does not occur in `[5, 6]`, so the locator
reports no region and the example passes through unchanged. -/
theorem c4_witness :
    locateSpan 3 9 [5, 6] = .noRegion ∧
    processExample mhaDemo [[0]] 1 3 9 [5, 6]
      (List.replicate 2 [0]) (List.replicate 2 1) =
      some (List.replicate 2 [0], List.replicate 2 1) :=
  c4_no_open_tag_identity mhaDemo [[0]] 1 3 9 [5, 6]
    (List.replicate 2 [0]) (List.replicate 2 1) (by decide)

/-- C8: the region aggregator (cross-attention with the `k` learned query
vectors) produces exactly `k` output vectors, each of dimension
`embed_dim` (= the hidden size, as the output projection is
`embed_dim × embed_dim`), regardless of the region length `L ≥ 1`. -/
theorem c8_aggregator_shape (p : MHAParams) (impl region : Emb) (k : Nat)
    (hk : impl.length = k)
    (hwo : p.wo.length = p.embedDim) (hbo : p.bo.length = p.embedDim)
    (hL : 1 ≤ region.length) :
    (mhaForward p impl region).length = k ∧
    ∀ v ∈ mhaForward p impl region, v.length = p.embedDim := by
  refine ⟨by simp [mhaForward, hk], ?_⟩
  intro v hv
  simp only [mhaForward] at hv
  obtain ⟨row, -, rfl⟩ := List.mem_map.mp hv
  simp [matVecB, hwo, hbo]

/-- C8 witness: with `embed_dim = 1`, one head, one implicit token and a
region of length 1, the aggregator yields one vector of dimension 1. -/
theorem c8_witness :
    (mhaForward mhaDemo [[0]] [[2]]).length = 1 ∧
    ∀ v ∈ mhaForward mhaDemo [[0]] [[2]], v.length = mhaDemo.embedDim :=
  c8_aggregator_shape mhaDemo [[0]] [[2]] 1 rfl rfl rfl (by simp)

/-- C2 counterexample: on the documented end-to-end scenario A — token sequence
`[5, 7, 3, 3, 3, 9, 9, 2]`, open id 3, close id 9, located region
`(start, end) = (4, 6)` — with `k = 1`, the reassembled length is 6, not
the claimed `8 − (6 − 4 − 1) + 1 = 8`: the splice also drops the two tag
positions `start` and `end` themselves, which the claimed formula omits. -/
theorem c2_counterexample :
    ¬ ((processExample mhaDemo [[0]] 1 3 9 [5, 7, 3, 3, 3, 9, 9, 2]
        (List.replicate 8 [0]) (List.replicate 8 1)).map (fun r => r.1.length) =
      some (8 - (6 - 4 - 1) + 1)) := by
  have hval : (processExample mhaDemo [[0]] 1 3 9 [5, 7, 3, 3, 3, 9, 9, 2]
      (List.replicate 8 [0]) (List.replicate 8 1)).map (fun r => r.1.length) =
      some 6 := rfl
  rw [hval]
  decide

/-- C2 amended: for a located region with `end > start + 1`, the
reassembled embedding sequence has length
`original_length − (end − start + 1) + k`: the region content strictly
between the tags (`end − start − 1` positions) and both tag positions are
removed, and `k` aggregated vectors are inserted. -/
theorem c2_amended_nonempty_region_length (p : MHAParams) (impl : Emb)
    (k thinkId endThinkId : Nat) (ids : List Nat) (emb : Emb) (mask : List Nat)
    (s e : Nat)
    (hk : impl.length = k)
    (hemb : emb.length = ids.length)
    (hloc : locateSpan thinkId endThinkId ids = .found s e)
    (hne : s + 1 < e) :
    ∃ out, processExample p impl k thinkId endThinkId ids emb mask = some out ∧
      out.1.length = ids.length - (e - s + 1) + k := by
  obtain ⟨hse, helen⟩ := locateSpan_found_bounds hloc
  have hregion : ((emb.drop (s + 1)).take (e - (s + 1))).length = e - s - 1 := by
    rw [List.length_take, List.length_drop, hemb]
    omega
  have hcond : ¬ (((emb.drop (s + 1)).take (e - (s + 1))).length = 0) := by
    rw [hregion]; omega
  refine ⟨(emb.take s ++ mhaForward p impl ((emb.drop (s + 1)).take (e - (s + 1)))
      ++ emb.drop (e + 1),
      mask.take s ++ List.replicate k 1 ++ mask.drop (e + 1)), ?_, ?_⟩
  · simp only [processExample, hloc]
    rw [if_neg hcond]
  · rw [List.length_append, List.length_append, mhaForward_length, hk,
      List.length_take, List.length_drop, hemb]
    omega

/-- C2 amended witness: sequence `[3, 3, 3, 7, 7, 9]` locates
`(start, end) = (2, 5)` with a region of length 2; with `k = 1` the
reassembled length is `6 − (5 − 2 + 1) + 1 = 3`. -/
theorem c2_witness :
    ∃ out, processExample mhaDemo [[0]] 1 3 9 [3, 3, 3, 7, 7, 9]
      (List.replicate 6 [0]) (List.replicate 6 1) = some out ∧
      out.1.length = 3 :=
  c2_amended_nonempty_region_length mhaDemo [[0]] 1 3 9 [3, 3, 3, 7, 7, 9]
    (List.replicate 6 [0]) (List.replicate 6 1) 2 5 rfl rfl (by decide) (by decide)

/-- C5: for a located region with `end = start + 1` (nothing strictly
between the tags), the reassembler concatenates positions `[0:start]` with
`[end+1:]` of both the embedding sequence and the mask, giving length
`original_length − 2`.  The result does not mention the aggregator
parameters `p`, `impl` or `k` at all: the aggregator is not invoked. -/
theorem c5_empty_region_splice (p : MHAParams) (impl : Emb)
    (k thinkId endThinkId : Nat) (ids : List Nat) (emb : Emb) (mask : List Nat)
    (s e : Nat)
    (hemb : emb.length = ids.length)
    (hloc : locateSpan thinkId endThinkId ids = .found s e)
    (he : e = s + 1) :
    processExample p impl k thinkId endThinkId ids emb mask =
      some (emb.take s ++ emb.drop (e + 1), mask.take s ++ mask.drop (e + 1)) ∧
    (emb.take s ++ emb.drop (e + 1)).length = ids.length - 2 := by
  obtain ⟨hse, helen⟩ := locateSpan_found_bounds hloc
  subst he
  constructor
  · simp only [processExample, hloc]
    rw [if_pos (by simp)]
  · rw [List.length_append, List.length_take, List.length_drop, hemb]
    omega

/-- C5 witness: sequence `[5, 3, 3, 3, 9, 2]` locates
`(start, end) = (3, 4)` with an empty region; the output concatenates
`[0:3]` and `[5:]` of embeddings and mask, with length `6 − 2 = 4`. -/
theorem c5_witness :
    processExample mhaDemo [[0]] 1 3 9 [5, 3, 3, 3, 9, 2]
      (List.replicate 6 [0]) (List.replicate 6 1) =
      some ((List.replicate 6 ([0] : Vec)).take 3 ++ (List.replicate 6 ([0] : Vec)).drop 5,
            (List.replicate 6 (1 : Nat)).take 3 ++ (List.replicate 6 (1 : Nat)).drop 5) ∧
    ((List.replicate 6 ([0] : Vec)).take 3 ++ (List.replicate 6 ([0] : Vec)).drop 5).length = 4 :=
  c5_empty_region_splice mhaDemo [[0]] 1 3 9 [5, 3, 3, 3, 9, 2]
    (List.replicate 6 [0]) (List.replicate 6 1) 3 4 rfl (by decide) (by decide)

/-- Row `i` of the padded batch, in closed form: the original pair extended
by the missing number of pad-embedding copies and mask zeros. -/
lemma padBatch_getD (padTokenEmb : Vec) (pairs : List (Emb × List Nat))
    (i : Nat) (hi : i < pairs.length) :
    (padBatch padTokenEmb pairs).getD i ([], []) =
      ((pairs.getD i ([], [])).1 ++
        List.replicate (batchMaxLen pairs - (pairs.getD i ([], [])).1.length) padTokenEmb,
       (pairs.getD i ([], [])).2 ++
        List.replicate (batchMaxLen pairs - (pairs.getD i ([], [])).1.length) 0) := by
  have hlen : i < (padBatch padTokenEmb pairs).length := by
    simpa [padBatch] using hi
  rw [List.getD_eq_getElem _ _ hlen, List.getD_eq_getElem _ _ hi]
  simp only [padBatch, List.getElem_map]
  split
  · rfl
  · rename_i hpad
    have h0 : batchMaxLen pairs - pairs[i].1.length = 0 := by omega
    simp [h0]

/-- C6: the batch padder output is rectangular — row `i` keeps its
original embedding vectors and mask values on the first
`original_length` positions, carries exactly the pad embedding and mask 0
on the appended tail, and both components have length equal to the
pre-padding batch maximum. -/
theorem c6_pad_batch_rectangular (padTokenEmb : Vec) (pairs : List (Emb × List Nat))
    (hlen : ∀ pr ∈ pairs, pr.2.length = pr.1.length)
    (i : Nat) (hi : i < pairs.length) :
    ((padBatch padTokenEmb pairs).getD i ([], [])).1.length = batchMaxLen pairs ∧
    ((padBatch padTokenEmb pairs).getD i ([], [])).2.length = batchMaxLen pairs ∧
    (∀ j < (pairs.getD i ([], [])).1.length,
      ((padBatch padTokenEmb pairs).getD i ([], [])).1.getD j [] =
        (pairs.getD i ([], [])).1.getD j [] ∧
      ((padBatch padTokenEmb pairs).getD i ([], [])).2.getD j 0 =
        (pairs.getD i ([], [])).2.getD j 0) ∧
    (∀ j, (pairs.getD i ([], [])).1.length ≤ j → j < batchMaxLen pairs →
      ((padBatch padTokenEmb pairs).getD i ([], [])).1.getD j [] = padTokenEmb ∧
      ((padBatch padTokenEmb pairs).getD i ([], [])).2.getD j 0 = 0) := by
  have hprEq : pairs.getD i ([], []) = pairs[i] := List.getD_eq_getElem _ _ hi
  have hmem : pairs[i] ∈ pairs := List.getElem_mem hi
  have hmax : pairs[i].1.length ≤ batchMaxLen pairs :=
    foldr_max_le (List.mem_map_of_mem _ hmem)
  have hmask : pairs[i].2.length = pairs[i].1.length := hlen _ hmem
  rw [padBatch_getD padTokenEmb pairs i hi, hprEq]
  refine ⟨?_, ?_, ?_, ?_⟩
  · rw [List.length_append, List.length_replicate]; omega
  · rw [List.length_append, List.length_replicate, hmask]; omega
  · intro j hj
    constructor
    · exact List.getD_append _ _ _ _ hj
    · exact List.getD_append _ _ _ _ (by omega)
  · intro j hj hjM
    constructor
    · rw [List.getD_append_right _ _ _ _ hj]
      exact getD_replicate (by omega)
    · rw [List.getD_append_right _ _ _ _ (by omega), hmask]
      exact getD_replicate (by omega)

/-- C6 witness: a batch of two reassembled pairs with lengths 1 and 3 is
padded to the maximum 3; the first row keeps its single vector and mask 1,
and carries the pad embedding and mask 0 on positions 1 and 2. -/
theorem c6_witness :
    ((padBatch [7] [([[5]], [1]), ([[2], [3], [4]], [1, 1, 0])]).getD 0 ([], [])).1.length =
      batchMaxLen [([[5]], [1]), ([[2], [3], [4]], [1, 1, 0])] ∧
    ((padBatch [7] [([[5]], [1]), ([[2], [3], [4]], [1, 1, 0])]).getD 0 ([], [])).2.length =
      batchMaxLen [([[5]], [1]), ([[2], [3], [4]], [1, 1, 0])] ∧
    (∀ j < (([([[5]], [1]), ([[2], [3], [4]], [1, 1, 0])] :
        List (Emb × List Nat)).getD 0 ([], [])).1.length,
      ((padBatch [7] [([[5]], [1]), ([[2], [3], [4]], [1, 1, 0])]).getD 0 ([], [])).1.getD j [] =
        (([([[5]], [1]), ([[2], [3], [4]], [1, 1, 0])] :
          List (Emb × List Nat)).getD 0 ([], [])).1.getD j [] ∧
      ((padBatch [7] [([[5]], [1]), ([[2], [3], [4]], [1, 1, 0])]).getD 0 ([], [])).2.getD j 0 =
        (([([[5]], [1]), ([[2], [3], [4]], [1, 1, 0])] :
          List (Emb × List Nat)).getD 0 ([], [])).2.getD j 0) ∧
    (∀ j, (([([[5]], [1]), ([[2], [3], [4]], [1, 1, 0])] :
        List (Emb × List Nat)).getD 0 ([], [])).1.length ≤ j →
      j < batchMaxLen [([[5]], [1]), ([[2], [3], [4]], [1, 1, 0])] →
      ((padBatch [7] [([[5]], [1]), ([[2], [3], [4]], [1, 1, 0])]).getD 0 ([], [])).1.getD j [] = [7] ∧
      ((padBatch [7] [([[5]], [1]), ([[2], [3], [4]], [1, 1, 0])]).getD 0 ([], [])).2.getD j 0 = 0) :=
  c6_pad_batch_rectangular [7] [([[5]], [1]), ([[2], [3], [4]], [1, 1, 0])]
    (by intro pr hpr; fin_cases hpr <;> rfl) 0 (by decide)

/-- C7: for a prompt of `p` tokens and a full text of `t ≥ p` tokens, the
label sequence built by `data_collator` has length `t`, the ignore
sentinel `-100` on its first `p` positions, and the real token ids of the
full text on the remaining `t − p` positions. -/
theorem c7_label_masking (ids : List Int) (p : Nat) (h : p ≤ ids.length) :
    (makeLabels ids p).length = ids.length ∧
    (∀ i < p, (makeLabels ids p).getD i 0 = -100) ∧
    (∀ i, p ≤ i → i < ids.length → (makeLabels ids p).getD i 0 = ids.getD i 0) := by
  refine ⟨?_, ?_, ?_⟩
  · simp only [makeLabels, List.length_append, List.length_replicate, List.length_drop]
    omega
  · intro i hip
    unfold makeLabels
    rw [List.getD_append _ _ _ _ (by simp only [List.length_replicate]; omega)]
    exact getD_replicate hip
  · intro i hpi hilen
    unfold makeLabels
    rw [List.getD_append_right _ _ _ _ (by simp only [List.length_replicate]; omega)]
    simp only [List.length_replicate]
    rw [List.getD_eq_getElem _ _ (by simp only [List.length_drop]; omega),
      List.getD_eq_getElem _ _ hilen, List.getElem_drop]
    congr 1
    omega

/-- C7 witness: token ids `[11, 12, 13, 14]` with prompt length 2 yield
labels of length 4, `-100` at positions 0 and 1, and the real ids at
positions 2 and 3. -/
theorem c7_witness :
    (makeLabels [11, 12, 13, 14] 2).length = ([11, 12, 13, 14] : List Int).length ∧
    (∀ i < 2, (makeLabels [11, 12, 13, 14] 2).getD i 0 = -100) ∧
    (∀ i, 2 ≤ i → i < ([11, 12, 13, 14] : List Int).length →
      (makeLabels [11, 12, 13, 14] 2).getD i 0 = ([11, 12, 13, 14] : List Int).getD i 0) :=
  c7_label_masking [11, 12, 13, 14] 2 (by decide)

/-- C9: merging two datasets whose field sets differ raises the
`ValueError` immediately — no merged dataset is produced in any form —
and a merge can only succeed when the two schemas are identical. -/
theorem c9_schema_mismatch_fatal (d1 d2 : HFDataset)
    (h : ¬ ∀ f, f ∈ d1.features ↔ f ∈ d2.features) :
    mergeDatasets d1 d2 = .error "The two datasets do not have the same structure!" ∧
    (∀ d, mergeDatasets d1 d2 ≠ .ok d) ∧
    (∀ a b d, mergeDatasets a b = .ok d → a.features = b.features) := by
  have hne : d1.features ≠ d2.features := fun hEq => h (fun f => by rw [hEq])
  refine ⟨?_, ?_, ?_⟩
  · simp [mergeDatasets, hne]
  · intro d
    simp [mergeDatasets, hne]
  · intro a b d hab
    by_cases hfe : a.features = b.features
    · exact hfe
    · simp [mergeDatasets, hfe] at hab

/-- C9 witness: scenario C — dataset A with fields
`{problem, solution, logic_trajectory, answer}` and dataset B with fields
`{problem, answer}` differ (B lacks `solution`), so the merge fails with
the `ValueError` and never returns a merged dataset. -/
theorem c9_witness :
    mergeDatasets ⟨["problem", "solution", "logic_trajectory", "answer"], []⟩
        ⟨["problem", "answer"], []⟩ =
      .error "The two datasets do not have the same structure!" ∧
    (∀ d, mergeDatasets ⟨["problem", "solution", "logic_trajectory", "answer"], []⟩
        ⟨["problem", "answer"], []⟩ ≠ .ok d) ∧
    (∀ a b d, mergeDatasets a b = .ok d → a.features = b.features) :=
  c9_schema_mismatch_fatal
    ⟨["problem", "solution", "logic_trajectory", "answer"], []⟩
    ⟨["problem", "answer"], []⟩
    (fun hall => by
      have := (hall "solution").mp (by decide)
      simp at this)

/-- Row `i` of a padded row batch, in closed form. -/
lemma padRows_getD (padId : Int) (rows : List (List Int)) (i : Nat)
    (hi : i < rows.length) :
    (padRows padId rows).getD i [] =
      rows.getD i [] ++
        List.replicate (rowMax rows - (rows.getD i []).length) padId := by
  have hlen : i < (padRows padId rows).length := by simpa [padRows] using hi
  rw [List.getD_eq_getElem _ _ hlen, List.getD_eq_getElem _ _ hi]
  simp [padRows]

/-- Labels are exactly as long as their token rows when every prompt fits,
so `tokenizer.pad` pads both to the same batch maximum. -/
lemma rowMax_labels_eq (batch : List (List Int × Nat))
    (hplen : ∀ b ∈ batch, b.2 ≤ b.1.length) :
    rowMax (batch.map (fun b => makeLabels b.1 b.2)) =
      rowMax (batch.map (fun b => b.1)) := by
  unfold rowMax
  rw [List.map_map, List.map_map]
  congr 1
  apply List.map_congr_left
  intro b hb
  simp only [Function.comp_apply, makeLabels, List.length_append,
    List.length_replicate, List.length_drop]
  have := hplen b hb
  omega

/-- C10: in a collated batch, an example whose tokenized full text is
shorter than the batch maximum gets its label tail filled with the pad
token id (a real id, not the `-100` sentinel), and the attention mask is 0
exactly at the positions of the padded inputs that equal the pad token
id. -/
theorem c10_collator_pad_tail (padId : Int) (batch : List (List Int × Nat))
    (hplen : ∀ b ∈ batch, b.2 ≤ b.1.length)
    (hpadId : padId ≠ -100)
    (i : Nat) (hi : i < batch.length)
    (ht : (batch.getD i ([], 0)).1.length < rowMax (batch.map (fun b => b.1))) :
    (∀ j, (batch.getD i ([], 0)).1.length ≤ j →
      j < rowMax (batch.map (fun b => b.1)) →
      (((dataCollator padId batch).2.2).getD i []).getD j 0 = padId ∧
      (((dataCollator padId batch).2.2).getD i []).getD j 0 ≠ -100) ∧
    (∀ j, j < rowMax (batch.map (fun b => b.1)) →
      ((((dataCollator padId batch).2.1).getD i []).getD j 1 = 0 ↔
        (((dataCollator padId batch).1).getD i []).getD j 0 = padId)) := by
  have hbEq : batch.getD i ([], 0) = batch[i] := List.getD_eq_getElem _ _ hi
  have hbmem : batch[i] ∈ batch := List.getElem_mem hi
  have hip : batch[i].2 ≤ batch[i].1.length := hplen _ hbmem
  have hiIn : i < (batch.map (fun b => b.1)).length := by simpa using hi
  have hiLab : i < (batch.map (fun b => makeLabels b.1 b.2)).length := by simpa using hi
  have hInRow : (batch.map (fun b => b.1)).getD i [] = batch[i].1 := by
    rw [List.getD_eq_getElem _ _ hiIn, List.getElem_map]
  have hLabRow : (batch.map (fun b => makeLabels b.1 b.2)).getD i [] =
      makeLabels batch[i].1 batch[i].2 := by
    rw [List.getD_eq_getElem _ _ hiLab, List.getElem_map]
  have hLabLen : (makeLabels batch[i].1 batch[i].2).length = batch[i].1.length := by
    simp only [makeLabels, List.length_append, List.length_replicate, List.length_drop]
    omega
  have hmaxIn : batch[i].1.length ≤ rowMax (batch.map (fun b => b.1)) := by
    refine foldr_max_le ?_
    rw [List.map_map]
    exact List.mem_map_of_mem _ hbmem
  constructor
  · intro j hj hjM
    rw [hbEq] at hj
    have hLab : ((dataCollator padId batch).2.2).getD i [] =
        makeLabels batch[i].1 batch[i].2 ++
          List.replicate (rowMax (batch.map (fun b => b.1)) - batch[i].1.length) padId := by
      show (padRows padId (batch.map (fun b => makeLabels b.1 b.2))).getD i [] = _
      rw [padRows_getD _ _ _ hiLab, hLabRow, rowMax_labels_eq batch hplen, hLabLen]
    rw [hLab, List.getD_append_right _ _ _ _ (by rw [hLabLen]; exact hj)]
    rw [hLabLen]
    have : (List.replicate (rowMax (batch.map (fun b => b.1)) - batch[i].1.length)
        padId).getD (j - batch[i].1.length) 0 = padId := getD_replicate (by omega)
    rw [this]
    exact ⟨rfl, hpadId⟩
  · intro j hjM
    have hIn : ((dataCollator padId batch).1).getD i [] =
        batch[i].1 ++
          List.replicate (rowMax (batch.map (fun b => b.1)) - batch[i].1.length) padId := by
      show (padRows padId (batch.map (fun b => b.1))).getD i [] = _
      rw [padRows_getD _ _ _ hiIn, hInRow]
    have hInLen : (((dataCollator padId batch).1).getD i []).length =
        rowMax (batch.map (fun b => b.1)) := by
      rw [hIn, List.length_append, List.length_replicate]
      omega
    have hMask : ((dataCollator padId batch).2.1).getD i [] =
        (((dataCollator padId batch).1).getD i []).map
          (fun t => if t ≠ padId then (1 : Int) else 0) := by
      show ((padRows padId (batch.map (fun b => b.1))).map
        (fun r => r.map (fun t => if t ≠ padId then (1 : Int) else 0))).getD i [] = _
      have hiPad : i < (padRows padId (batch.map (fun b => b.1))).length := by
        simpa [padRows] using hi
      rw [List.getD_eq_getElem _ _ (by simpa using hiPad), List.getElem_map]
      rw [show ((dataCollator padId batch).1).getD i [] =
          (padRows padId (batch.map (fun b => b.1))).getD i [] from rfl]
      rw [List.getD_eq_getElem _ _ hiPad]
    rw [hMask]
    have hjlen : j < (((dataCollator padId batch).1).getD i []).length := by
      rw [hInLen]; exact hjM
    rw [List.getD_eq_getElem _ _ (by simpa using hjlen), List.getElem_map,
      List.getD_eq_getElem _ _ hjlen]
    by_cases hEq : (((dataCollator padId batch).1).getD i [])[j] = padId
    · simp [hEq]
    · simp [hEq]

/-- C10 witness: with pad id 0 and a batch of token rows `[11, 12]`
(prompt length 1) and `[21, 22, 23, 24]` (prompt length 2), the first
labels of the first example are padded with 0 (not `-100`) on positions 2 and 3, and
its attention mask is 0 exactly where the padded inputs equal 0. -/
theorem c10_witness :
    (∀ j, (([([11, 12], 1), ([21, 22, 23, 24], 2)] :
        List (List Int × Nat)).getD 0 ([], 0)).1.length ≤ j →
      j < rowMax (([([11, 12], 1), ([21, 22, 23, 24], 2)] :
        List (List Int × Nat)).map (fun b => b.1)) →
      (((dataCollator 0 [([11, 12], 1), ([21, 22, 23, 24], 2)]).2.2).getD 0 []).getD j 0 = 0 ∧
      (((dataCollator 0 [([11, 12], 1), ([21, 22, 23, 24], 2)]).2.2).getD 0 []).getD j 0 ≠ -100) ∧
    (∀ j, j < rowMax (([([11, 12], 1), ([21, 22, 23, 24], 2)] :
        List (List Int × Nat)).map (fun b => b.1)) →
      ((((dataCollator 0 [([11, 12], 1), ([21, 22, 23, 24], 2)]).2.1).getD 0 []).getD j 1 = 0 ↔
        (((dataCollator 0 [([11, 12], 1), ([21, 22, 23, 24], 2)]).1).getD 0 []).getD j 0 = 0)) :=
  c10_collator_pad_tail 0 [([11, 12], 1), ([21, 22, 23, 24], 2)]
    (by intro b hb; fin_cases hb <;> decide) (by decide) 0 (by decide) (by decide)

end ImplicitTokens
